import Mathlib

/-!
Shallow embedding of the vapours pixel-value conversion core.

Modelling conventions, used consistently below:

* Rust `f32` values are modelled as exact rationals (`ℚ`).  The specification
  states all contracts in terms of real numbers, and every claim below is
  settled in that exact-arithmetic reading; `f32` rounding itself is not
  modelled.
* Rust `i32` arithmetic is modelled with its checked (debug/overflow-checked)
  semantics: a shift whose amount is negative or is at least 32 and a
  subtraction that leaves the `i32` range are panics, modelled as `none`.
  The value produced by an in-range shift wraps to two's complement, as the
  unchecked value computation of `<<` does in Rust.
* Fallible or panicking computations return `Option`/`Except`; `none` marks a
  panic.
-/

namespace Vapours

/-- Color family of a video format (`vapoursynth4_rs::ColorFamily`). -/
inductive ColorFamily
  | Undefined
  | Gray
  | RGB
  | YUV
deriving DecidableEq, Repr

/-- Sample representation of a video format (`vapoursynth4_rs::SampleType`). -/
inductive SampleType
  | Integer
  | Float
deriving DecidableEq, Repr

/-- Pixel range, from `src/enums.rs` (`Limited = 1`, `Full = 0`). -/
inductive ColorRange
  | Limited
  | Full
deriving DecidableEq, Repr

/-- The video format descriptor (`vapoursynth4_rs::frame::VideoFormat`). -/
structure VideoFormat where
  color_family : ColorFamily
  sample_type : SampleType
  bits_per_sample : Int
  bytes_per_sample : Int
  sub_sampling_w : Int
  sub_sampling_h : Int
  num_planes : Int
deriving DecidableEq, Repr

/-- Two's-complement wrap of an integer into the `i32` range. -/
def wrapI32 (n : Int) : Int :=
  (n + 2147483648) % 4294967296 - 2147483648

/-- Checked `i32` left shift, Rust debug semantics: a shift amount that is
negative or at least 32 panics (`none`); the shifted value itself wraps. -/
def shlI32 (a s : Int) : Option Int :=
  if 0 ≤ s ∧ s < 32 then some (wrapI32 (a * 2 ^ s.toNat)) else none

/-- Checked `i32` subtraction, Rust debug semantics: overflow panics. -/
def subI32 (a b : Int) : Option Int :=
  if -2147483648 ≤ a - b ∧ a - b < 2147483648 then some (a - b) else none

/-- num-traits `i32::to_f32`, which always succeeds; the value is taken
exactly in the rational model of `f32`. -/
def i32_to_f32 (n : Int) : Option ℚ :=
  some (n : ℚ)

/-- Loop of `make_video_format` in `src/vs_enums.rs` computing the smallest
power-of-two byte count holding the bit depth (fuel-bounded recursion; 64
doublings are more than any `i32` bit count can consume). -/
def bytesPerSampleLoop (bits : Int) : Nat → Int → Int
  | 0, bytes => bytes
  | fuel + 1, bytes =>
    if bytes * 8 < bits then bytesPerSampleLoop bits fuel (bytes * 2) else bytes

/-- Constructor `make_video_format` from `src/vs_enums.rs`. -/
def make_video_format (color_family : ColorFamily) (sample_type : SampleType)
    (bits_per_sample sub_sampling_w sub_sampling_h : Int) : VideoFormat :=
  { color_family := color_family
    sample_type := sample_type
    bits_per_sample := bits_per_sample
    bytes_per_sample := bytesPerSampleLoop bits_per_sample 64 1
    sub_sampling_w := sub_sampling_w
    sub_sampling_h := sub_sampling_h
    num_planes :=
      match color_family with
      | ColorFamily.Gray => 1
      | _ => 3 }

/-- Preset format: GRAY color family, 8 bits per sample. -/
def GRAY8 : VideoFormat := make_video_format ColorFamily.Gray SampleType.Integer 8 0 0

/-- Preset format: GRAY color family, 10 bits per sample. -/
def GRAY10 : VideoFormat := make_video_format ColorFamily.Gray SampleType.Integer 10 0 0

/-- Preset format: GRAY color family, 16 bits per sample. -/
def GRAY16 : VideoFormat := make_video_format ColorFamily.Gray SampleType.Integer 16 0 0

/-- Preset format: GRAY color family, 31 bits per sample. -/
def GRAY31 : VideoFormat := make_video_format ColorFamily.Gray SampleType.Integer 31 0 0

/-- Preset format: GRAY color family, 32 bits per sample. -/
def GRAY32 : VideoFormat := make_video_format ColorFamily.Gray SampleType.Integer 32 0 0

/-- Preset format: GRAY color family, 32-bit float samples. -/
def GRAYS : VideoFormat := make_video_format ColorFamily.Gray SampleType.Float 32 0 0

/-- Preset format: YUV color family, 4:2:0 subsampling, 8 bits per sample. -/
def YUV420P8 : VideoFormat := make_video_format ColorFamily.YUV SampleType.Integer 8 1 1

/-- Preset format: YUV color family, 4:4:4 subsampling, 8 bits per sample. -/
def YUV444P8 : VideoFormat := make_video_format ColorFamily.YUV SampleType.Integer 8 0 0

/-- Preset format: YUV color family, 4:4:4 subsampling, 32-bit float samples. -/
def YUV444PS : VideoFormat := make_video_format ColorFamily.YUV SampleType.Float 32 0 0

/-- Preset format: RGB color family, 8 bits per sample per plane. -/
def RGB24 : VideoFormat := make_video_format ColorFamily.RGB SampleType.Integer 8 0 0

/-- Preset format: RGB color family, 32-bit float samples. -/
def RGBS : VideoFormat := make_video_format ColorFamily.RGB SampleType.Float 32 0 0

/-- Resolved chroma flag shared by `lowest_value` and `peak_value`
(`src/generic.rs` lines 39-44 and 80-85): forced `false` for the RGB color
family, defaulting to `false`. -/
def resolvedChroma (f : VideoFormat) (chroma : Option Bool) : Bool :=
  if f.color_family = ColorFamily.RGB then false else chroma.getD false

/-- `HoldsVideoFormat::lowest_value` from `src/generic.rs` lines 38-63.  The
source's let-bound `chroma` (forced `false` for RGB, defaulting to `false`)
and `range_in` (defaulting to `Full` for RGB, else `Limited`) are inlined at
their single use sites. -/
def lowest_value (f : VideoFormat) (chroma : Option Bool) (range_in : Option ColorRange) :
    Option ℚ :=
  if f.sample_type = SampleType.Float then
    some (if resolvedChroma f chroma then -(1 / 2 : ℚ) else 0)
  else if range_in.getD
      (if f.color_family = ColorFamily.RGB then ColorRange.Full else ColorRange.Limited) =
      ColorRange.Limited then
    (shlI32 16 (f.bits_per_sample - 8)).bind i32_to_f32
  else
    some 0

/-- `HoldsVideoFormat::neutral_value` from `src/generic.rs` lines 65-75. -/
def neutral_value (f : VideoFormat) : Option ℚ :=
  if f.sample_type = SampleType.Float then
    some 0
  else
    (shlI32 1 (f.bits_per_sample - 1)).bind i32_to_f32

/-- `HoldsVideoFormat::peak_value` from `src/generic.rs` lines 77-106, with
the let-bound `chroma` and `range_in` of the source inlined. -/
def peak_value (f : VideoFormat) (chroma : Option Bool) (range_in : Option ColorRange) :
    Option ℚ :=
  if f.sample_type = SampleType.Float then
    some (if resolvedChroma f chroma then (1 / 2 : ℚ) else 1)
  else if range_in.getD
      (if f.color_family = ColorFamily.RGB then ColorRange.Full else ColorRange.Limited) =
      ColorRange.Limited then
    (shlI32 (if resolvedChroma f chroma then 240 else 235) (f.bits_per_sample - 8)).bind
      i32_to_f32
  else
    (shlI32 1 f.bits_per_sample).bind fun shifted =>
      (subI32 shifted 1).bind i32_to_f32

/-- Integer result of `f32::round`: round to nearest, ties away from zero. -/
def roundInt (q : ℚ) : Int :=
  if 0 ≤ q then ⌊q + 1 / 2⌋ else -⌊-q + 1 / 2⌋

/-- Rational model of `f32::round`. -/
def roundF32 (q : ℚ) : ℚ :=
  (roundInt q : ℚ)

/-- Rational model of `f32::clamp` (the source only calls it with
`lo = 0.0 ≤ hi`, so the `assert!(min <= max)` of the real `clamp` never
fires). -/
def clampF32 (x lo hi : ℚ) : ℚ :=
  if x < lo then lo else if hi < x then hi else x

/-- Resolution of the let-bound `range_in`/`range_out` of `scale_value`
(`src/scale.rs` lines 34-43): a missing range defaults to `Full` for an RGB
format and to `Limited` otherwise. -/
def resolveRange (f : VideoFormat) (r : Option ColorRange) : ColorRange :=
  r.getD (if f.color_family = ColorFamily.RGB then ColorRange.Full else ColorRange.Limited)

/-- Resolution of the let-bound `chroma` of `scale_value` (`src/scale.rs`
lines 53-57): forced `false` when either endpoint is RGB, defaulting to
`false`. -/
def scaleChroma (format_in format_out : VideoFormat) (chroma : Option Bool) : Bool :=
  if format_in.color_family = ColorFamily.RGB ∨ format_out.color_family = ColorFamily.RGB then
    false
  else
    chroma.getD false

/-- Source-side pre-offset subtraction of `scale_value` (`src/scale.rs` lines
64-70). -/
def inputOffset (value : ℚ) (format_in : VideoFormat) (rin : ColorRange)
    (scale_offsets chroma : Bool) : Option ℚ :=
  if scale_offsets ∧ format_in.sample_type = SampleType.Integer then
    if chroma then
      (shlI32 128 (format_in.bits_per_sample - 8)).map fun (o : Int) => value - (o : ℚ)
    else if rin = ColorRange.Limited then
      (shlI32 16 (format_in.bits_per_sample - 8)).map fun (o : Int) => value - (o : ℚ)
    else
      some value
  else
    some value

/-- Destination-side post-offset addition of `scale_value` (`src/scale.rs`
lines 74-80). -/
def outputOffset (rescaled : ℚ) (format_out : VideoFormat) (rout : ColorRange)
    (scale_offsets chroma : Bool) : Option ℚ :=
  if scale_offsets ∧ format_out.sample_type = SampleType.Integer then
    if chroma then
      (shlI32 128 (format_out.bits_per_sample - 8)).map fun (o : Int) => rescaled + (o : ℚ)
    else if rout = ColorRange.Limited then
      (shlI32 16 (format_out.bits_per_sample - 8)).map fun (o : Int) => rescaled + (o : ℚ)
    else
      some rescaled
  else
    some rescaled

/-- `scale_value` from `src/scale.rs` lines 15-89.  The generic input
`value: T` with its infallible-on-pixel-data `to_f32` conversion is taken
directly as a rational; the source's let-bound `scale_offsets`, `range_in`,
`range_out` and `chroma` are factored into `Option.getD true`,
`resolveRange` and `scaleChroma`, and its two offset blocks into
`inputOffset`/`outputOffset`. -/
def scale_value (value : ℚ) (format_in format_out : VideoFormat)
    (range_in range_out : Option ColorRange)
    (scale_offsets chroma : Option Bool) : Option ℚ :=
  if format_in.bits_per_sample = format_out.bits_per_sample ∧
      resolveRange format_in range_in = resolveRange format_out range_out ∧
      format_in.sample_type = format_out.sample_type then
    some value
  else
    (peak_value format_in (some (scaleChroma format_in format_out chroma))
      (some (resolveRange format_in range_in))).bind fun input_peak =>
    (lowest_value format_in (some (scaleChroma format_in format_out chroma))
      (some (resolveRange format_in range_in))).bind fun input_lowest =>
    (peak_value format_out (some (scaleChroma format_in format_out chroma))
      (some (resolveRange format_out range_out))).bind fun output_peak =>
    (lowest_value format_out (some (scaleChroma format_in format_out chroma))
      (some (resolveRange format_out range_out))).bind fun output_lowest =>
    (inputOffset value format_in (resolveRange format_in range_in) (scale_offsets.getD true)
      (scaleChroma format_in format_out chroma)).bind fun shifted =>
    (outputOffset (shifted * ((output_peak - output_lowest) / (input_peak - input_lowest)))
      format_out (resolveRange format_out range_out) (scale_offsets.getD true)
      (scaleChroma format_in format_out chroma)).bind fun offset_out =>
    if format_out.sample_type = SampleType.Integer then
      (peak_value format_out none (some ColorRange.Full)).map fun storage_peak =>
        clampF32 (roundF32 offset_out) 0 storage_peak
    else
      some offset_out

/-- The dither strategy enum `DitherType` from `src/utils.rs` lines 15-61. -/
inductive DitherType
  | Auto
  | None
  | Ordered
  | Random
  | ErrorDiffusion
  | ErrorDiffusionFmtc
  | Sierra24a
  | Stucki
  | Atkinson
  | Ostromoukhov
  | Void
  | Quasirandom
deriving DecidableEq, Repr

/-- ASCII lowercasing of a string, the normalisation underlying strum's
`ascii_case_insensitive` matching. -/
def asciiLowercase (s : String) : String :=
  String.map (fun c => if 'A' ≤ c ∧ c ≤ 'Z' then Char.ofNat (c.toNat + 32) else c) s

/-- Serialized name of each `DitherType` variant, as generated by
`#[strum(serialize_all = "snake_case")]` with the explicit
`#[strum(serialize = "sierra_2_4a")]` override. -/
def ditherSerialization : DitherType → String
  | DitherType.Auto => "auto"
  | DitherType.None => "none"
  | DitherType.Ordered => "ordered"
  | DitherType.Random => "random"
  | DitherType.ErrorDiffusion => "error_diffusion"
  | DitherType.ErrorDiffusionFmtc => "error_diffusion_fmtc"
  | DitherType.Sierra24a => "sierra_2_4a"
  | DitherType.Stucki => "stucki"
  | DitherType.Atkinson => "atkinson"
  | DitherType.Ostromoukhov => "ostromoukhov"
  | DitherType.Void => "void"
  | DitherType.Quasirandom => "quasirandom"

/-- The `FromStr` implementation strum derives for `DitherType` with
`ascii_case_insensitive`: the token is compared ASCII-case-insensitively
against each variant's serialized name (all of which are lowercase), and a
non-matching token is an error (`none`). -/
def dither_from_str (s : String) : Option DitherType :=
  if asciiLowercase s = "auto" then some DitherType.Auto
  else if asciiLowercase s = "none" then some DitherType.None
  else if asciiLowercase s = "ordered" then some DitherType.Ordered
  else if asciiLowercase s = "random" then some DitherType.Random
  else if asciiLowercase s = "error_diffusion" then some DitherType.ErrorDiffusion
  else if asciiLowercase s = "error_diffusion_fmtc" then some DitherType.ErrorDiffusionFmtc
  else if asciiLowercase s = "sierra_2_4a" then some DitherType.Sierra24a
  else if asciiLowercase s = "stucki" then some DitherType.Stucki
  else if asciiLowercase s = "atkinson" then some DitherType.Atkinson
  else if asciiLowercase s = "ostromoukhov" then some DitherType.Ostromoukhov
  else if asciiLowercase s = "void" then some DitherType.Void
  else if asciiLowercase s = "quasirandom" then some DitherType.Quasirandom
  else none

/-- The serialization table of `DitherType`, in declaration order of the
variants. -/
def ditherTable : List (String × DitherType) :=
  [("auto", DitherType.Auto), ("none", DitherType.None), ("ordered", DitherType.Ordered),
   ("random", DitherType.Random), ("error_diffusion", DitherType.ErrorDiffusion),
   ("error_diffusion_fmtc", DitherType.ErrorDiffusionFmtc),
   ("sierra_2_4a", DitherType.Sierra24a), ("stucki", DitherType.Stucki),
   ("atkinson", DitherType.Atkinson), ("ostromoukhov", DitherType.Ostromoukhov),
   ("void", DitherType.Void), ("quasirandom", DitherType.Quasirandom)]

/-- First-match lookup of a normalised token in a serialization table; the
if-chain of `dither_from_str` is definitionally this lookup applied to
`ditherTable`. -/
def lookupToken (t : String) : List (String × DitherType) → Option DitherType
  | [] => none
  | (tok, d) :: rest => if t = tok then some d else lookupToken t rest

/-- The error enum `VapoursError` from `src/errors.rs`. -/
inductive VapoursError
  | DependencyNotFoundError (name : String)
  | FramePropertyError (name : String)
deriving DecidableEq, Repr

/-- Host-runtime video node handle (external boundary object, opaque to the
core; only its identity matters here). -/
structure VideoNode where
  id : Nat
deriving DecidableEq, Repr

/-- A value stored in a host argument map. -/
inductive MapValue
  | videoNode (node : VideoNode)
  | int (value : Int)
deriving DecidableEq, Repr

/-- Host key-value argument map (external boundary object). -/
structure VSMap where
  entries : List (String × MapValue)
deriving DecidableEq, Repr

/-- Host map write with `AppendMode::Replace`; the host API reports failure
through an error code, modelled as the `none` case. -/
def VSMap.set (m : VSMap) (k : String) (v : MapValue) : Option VSMap :=
  some { entries := (k, v) :: m.entries.filter (fun e => !(e.1 == k)) }

/-- Host map read of a video node at an index. -/
def VSMap.get_video_node (m : VSMap) (k : String) (index : Nat) : Option VideoNode :=
  match m.entries.find? (fun e => e.1 == k), index with
  | some (_, MapValue.videoNode node), 0 => some node
  | _, _ => none

/-- A host plugin, invoked by function name with an argument map. -/
structure Plugin where
  invoke : String → VSMap → VSMap

/-- The host core handle: plugin lookup by namespaced identifier plus map
creation. -/
structure Core where
  get_plugin_by_id : String → Option Plugin
  create_map : VSMap

/-- Result of running a Rust function that may panic. -/
inductive RustOutcome (α : Type)
  | ok (value : α)
  | panicked (message : String)

/-- The namespace identifier of the external fmtconv plugin
(`src/utils.rs` line 12). -/
def FMTCONV_NAMESPACE : String := "fmtc"

/-- `VapoursCore::depth` from `src/utils.rs` lines 74-102.  The body starts
with `todo!("Needs configurable dither type, non-fmtc dithering, and probably
more.")`, so every call panics before the plugin lookup is reached; all the
remaining statements of the function are statically unreachable. -/
def depth (core : Core) (clip : VideoNode) (bit_depth : Nat) :
    RustOutcome (Except VapoursError VideoNode) :=
  RustOutcome.panicked
    "not yet implemented: Needs configurable dither type, non-fmtc dithering, and probably more."

/-- The statically unreachable continuation of `depth` (`src/utils.rs` lines
80-101), modelled on its own: look up the fmtconv plugin, report
`DependencyNotFoundError` with the missing namespace when absent, otherwise
build the argument map and invoke the delegated `bitdepth` conversion,
mapping every property failure to `FramePropertyError "clip"`. -/
def depth_after_todo (core : Core) (clip : VideoNode) (bit_depth : Nat) :
    Except VapoursError VideoNode :=
  match core.get_plugin_by_id FMTCONV_NAMESPACE with
  | none => Except.error (VapoursError.DependencyNotFoundError FMTCONV_NAMESPACE)
  | some fmtc_plugin =>
    match core.create_map.set "clip" (MapValue.videoNode clip) with
    | none => Except.error (VapoursError.FramePropertyError "clip")
    | some args =>
      match args.set "bitdepth" (MapValue.int (Int.ofNat bit_depth)) with
      | none => Except.error (VapoursError.FramePropertyError "clip")
      | some args =>
        match (fmtc_plugin.invoke "bitdepth" args).get_video_node "clip" 0 with
        | none => Except.error (VapoursError.FramePropertyError "clip")
        | some node => Except.ok node

/-! Helper lemmas about the checked `i32` arithmetic. -/

theorem wrapI32_eq_self (n : Int) (h0 : 0 ≤ n) (h1 : n < 2147483648) : wrapI32 n = n := by
  unfold wrapI32
  omega

theorem shlI32_eq (a s : Int) (h0 : 0 ≤ s) (h1 : s < 32)
    (ha : 0 ≤ a * 2 ^ s.toNat) (hb : a * 2 ^ s.toNat < 2147483648) :
    shlI32 a s = some (a * 2 ^ s.toNat) := by
  unfold shlI32
  rw [if_pos ⟨h0, h1⟩, wrapI32_eq_self _ ha hb]

theorem shlI32_isSome (a s : Int) (h0 : 0 ≤ s) (h1 : s < 32) : (shlI32 a s).isSome := by
  unfold shlI32
  rw [if_pos ⟨h0, h1⟩]
  rfl

theorem subI32_eq (a b : Int) (h0 : -2147483648 ≤ a - b) (h1 : a - b < 2147483648) :
    subI32 a b = some (a - b) := by
  unfold subI32
  rw [if_pos ⟨h0, h1⟩]

theorem two_pow_le_of_le (m k : Nat) (h : m ≤ k) : (2 : Int) ^ m ≤ 2 ^ k :=
  pow_le_pow_right₀ (by norm_num) h

theorem bind_i32_to_f32_isSome (o : Option Int) (h : o.isSome) :
    (o.bind i32_to_f32).isSome := by
  rcases o with _ | x
  · simp at h
  · simp [i32_to_f32]

/-! Evaluation lemmas for the characteristic values of integer formats with
bit depths on which the checked i32 arithmetic stays exact. -/

theorem lowest_value_resolved_limited (f : VideoFormat) (c : Option Bool)
    (r : Option ColorRange) (hi : f.sample_type = SampleType.Integer)
    (h8 : 8 ≤ f.bits_per_sample) (h34 : f.bits_per_sample ≤ 34)
    (hr : r.getD
      (if f.color_family = ColorFamily.RGB then ColorRange.Full else ColorRange.Limited) =
      ColorRange.Limited) :
    lowest_value f c r =
      some ((16 : ℚ) * 2 ^ (f.bits_per_sample - 8).toNat) := by
  have hm : (f.bits_per_sample - 8).toNat ≤ 26 := by omega
  have hval : (16 : Int) * 2 ^ (f.bits_per_sample - 8).toNat < 2147483648 := by
    calc (16 : Int) * 2 ^ (f.bits_per_sample - 8).toNat
        ≤ 16 * 2 ^ 26 := by
          have := two_pow_le_of_le (f.bits_per_sample - 8).toNat 26 hm
          linarith
      _ < 2147483648 := by norm_num
  have hs : shlI32 16 (f.bits_per_sample - 8) =
      some (16 * 2 ^ (f.bits_per_sample - 8).toNat) :=
    shlI32_eq _ _ (by omega) (by omega) (by positivity) hval
  unfold lowest_value
  rw [if_neg (by simp [hi]), if_pos hr, hs, Option.some_bind]
  unfold i32_to_f32
  push_cast
  ring_nf

theorem lowest_value_resolved_full (f : VideoFormat) (c : Option Bool)
    (r : Option ColorRange) (hi : f.sample_type = SampleType.Integer)
    (hr : r.getD
      (if f.color_family = ColorFamily.RGB then ColorRange.Full else ColorRange.Limited) =
      ColorRange.Full) :
    lowest_value f c r = some 0 := by
  unfold lowest_value
  rw [if_neg (by simp [hi]), if_neg (by simp [hr])]

theorem peak_value_int_full (f : VideoFormat) (c : Option Bool)
    (hi : f.sample_type = SampleType.Integer)
    (h0 : 0 ≤ f.bits_per_sample) (h30 : f.bits_per_sample ≤ 30) :
    peak_value f c (some ColorRange.Full) =
      some ((2 : ℚ) ^ f.bits_per_sample.toNat - 1) := by
  have hm : f.bits_per_sample.toNat ≤ 30 := by omega
  have hval : (1 : Int) * 2 ^ f.bits_per_sample.toNat < 2147483648 := by
    have := two_pow_le_of_le f.bits_per_sample.toNat 30 hm
    norm_num at this ⊢
    linarith
  have hs : shlI32 1 f.bits_per_sample = some (1 * 2 ^ f.bits_per_sample.toNat) :=
    shlI32_eq _ _ h0 (by omega) (by positivity) hval
  have hpos : (0 : Int) ≤ 2 ^ f.bits_per_sample.toNat := by positivity
  have hsub : subI32 (1 * 2 ^ f.bits_per_sample.toNat) 1 =
      some (1 * 2 ^ f.bits_per_sample.toNat - 1) :=
    subI32_eq _ _ (by omega) (by omega)
  unfold peak_value
  rw [if_neg (by simp [hi]), Option.getD_some, if_neg (by simp), hs, Option.some_bind, hsub,
    Option.some_bind]
  unfold i32_to_f32
  push_cast
  ring_nf

theorem peak_value_int_limited_false (f : VideoFormat)
    (hi : f.sample_type = SampleType.Integer)
    (h8 : 8 ≤ f.bits_per_sample) (h31 : f.bits_per_sample ≤ 31) :
    peak_value f (some false) (some ColorRange.Limited) =
      some ((235 : ℚ) * 2 ^ (f.bits_per_sample - 8).toNat) := by
  have hm : (f.bits_per_sample - 8).toNat ≤ 23 := by omega
  have hval : (235 : Int) * 2 ^ (f.bits_per_sample - 8).toNat < 2147483648 := by
    calc (235 : Int) * 2 ^ (f.bits_per_sample - 8).toNat
        ≤ 235 * 2 ^ 23 := by
          have := two_pow_le_of_le (f.bits_per_sample - 8).toNat 23 hm
          linarith
      _ < 2147483648 := by norm_num
  have hs : shlI32 235 (f.bits_per_sample - 8) =
      some (235 * 2 ^ (f.bits_per_sample - 8).toNat) :=
    shlI32_eq _ _ (by omega) (by omega) (by positivity) hval
  have hc : resolvedChroma f (some false) = false := by
    unfold resolvedChroma
    split_ifs <;> rfl
  unfold peak_value
  rw [if_neg (by simp [hi]), Option.getD_some, if_pos rfl, hc]
  rw [show (if (false : Bool) then (240 : Int) else 235) = 235 from rfl, hs, Option.some_bind]
  unfold i32_to_f32
  push_cast
  ring_nf

theorem lowest_value_isSome (f : VideoFormat) (c : Option Bool) (r : Option ColorRange)
    (h : f.sample_type = SampleType.Integer → 8 ≤ f.bits_per_sample ∧ f.bits_per_sample ≤ 30) :
    (lowest_value f c r).isSome := by
  unfold lowest_value
  split_ifs <;> try rfl
  all_goals
    have hst : f.sample_type = SampleType.Integer := by
      cases hst2 : f.sample_type <;> simp_all
  all_goals have hd := h hst
  all_goals
    exact bind_i32_to_f32_isSome _
      (shlI32_isSome 16 (f.bits_per_sample - 8) (by omega) (by omega))

theorem neutral_value_isSome (f : VideoFormat)
    (h : f.sample_type = SampleType.Integer → 8 ≤ f.bits_per_sample ∧ f.bits_per_sample ≤ 30) :
    (neutral_value f).isSome := by
  unfold neutral_value
  split_ifs <;> try rfl
  all_goals
    have hst : f.sample_type = SampleType.Integer := by
      cases hst2 : f.sample_type <;> simp_all
  all_goals have hd := h hst
  all_goals
    exact bind_i32_to_f32_isSome _
      (shlI32_isSome 1 (f.bits_per_sample - 1) (by omega) (by omega))

theorem peak_value_isSome (f : VideoFormat) (c : Option Bool) (r : Option ColorRange)
    (h : f.sample_type = SampleType.Integer → 8 ≤ f.bits_per_sample ∧ f.bits_per_sample ≤ 30) :
    (peak_value f c r).isSome := by
  unfold peak_value
  split_ifs <;> try rfl
  all_goals
    have hst : f.sample_type = SampleType.Integer := by
      cases hst2 : f.sample_type <;> simp_all
  all_goals have hd := h hst
  all_goals
    first
    | exact bind_i32_to_f32_isSome _
        (shlI32_isSome _ (f.bits_per_sample - 8) (by omega) (by omega))
    | (have hm : f.bits_per_sample.toNat ≤ 30 := by omega
       have hval : (1 : Int) * 2 ^ f.bits_per_sample.toNat < 2147483648 := by
         have := two_pow_le_of_le f.bits_per_sample.toNat 30 hm
         norm_num at this ⊢
         linarith
       have hs : shlI32 1 f.bits_per_sample = some (1 * 2 ^ f.bits_per_sample.toNat) :=
         shlI32_eq _ _ (by omega) (by omega) (by positivity) hval
       have hpos : (0 : Int) ≤ 2 ^ f.bits_per_sample.toNat := by positivity
       have hsub : subI32 (1 * 2 ^ f.bits_per_sample.toNat) 1 =
           some (1 * 2 ^ f.bits_per_sample.toNat - 1) :=
         subI32_eq _ _ (by omega) (by omega)
       rw [hs, Option.some_bind, hsub, Option.some_bind]
       rfl)

/-! Rounding and clamping lemmas. -/

theorem roundInt_intCast (n : Int) : roundInt (n : ℚ) = n := by
  unfold roundInt
  have hhalf : ⌊(1 / 2 : ℚ)⌋ = 0 := by
    rw [Int.floor_eq_zero_iff]
    constructor <;> norm_num
  split_ifs with h
  · rw [show ((n : ℚ) + 1 / 2) = (n : ℚ) + (1 / 2 : ℚ) from rfl, Int.floor_int_add, hhalf]
    omega
  · rw [show (-(n : ℚ) + 1 / 2) = ((-n : Int) : ℚ) + (1 / 2 : ℚ) by push_cast; ring,
      Int.floor_int_add, hhalf]
    omega

theorem roundF32_intCast (n : Int) : roundF32 (n : ℚ) = (n : ℚ) := by
  unfold roundF32
  rw [roundInt_intCast]

theorem abs_roundF32_sub (q : ℚ) : |roundF32 q - q| ≤ 1 / 2 := by
  unfold roundF32 roundInt
  split_ifs with h
  · have h1 := Int.floor_le (q + 1 / 2)
    have h2 := Int.lt_floor_add_one (q + 1 / 2)
    rw [abs_le]
    constructor <;> [linarith; linarith]
  · have h1 := Int.floor_le (-q + 1 / 2)
    have h2 := Int.lt_floor_add_one (-q + 1 / 2)
    rw [abs_le]
    push_cast
    constructor <;> [linarith; linarith]

theorem roundInt_eq_of_abs_lt (v : Int) (q : ℚ) (h : |q - v| < 1 / 2) : roundInt q = v := by
  rw [abs_lt] at h
  unfold roundInt
  split_ifs with h0
  · rw [Int.floor_eq_iff]
    constructor <;> linarith
  · rw [neg_eq_iff_eq_neg, Int.floor_eq_iff]
    push_cast
    constructor <;> linarith

theorem roundInt_nonneg (q : ℚ) (h : 0 ≤ q) : 0 ≤ roundInt q := by
  unfold roundInt
  rw [if_pos h, Int.le_floor]
  push_cast
  linarith

theorem roundInt_le (q : ℚ) (N : Int) (hN : 0 ≤ N) (h : q ≤ N) : roundInt q ≤ N := by
  unfold roundInt
  split_ifs with h0
  · have hmono : ⌊q + 1 / 2⌋ ≤ ⌊(N : ℚ) + 1 / 2⌋ := Int.floor_le_floor (by linarith)
    have hflo : ⌊(N : ℚ) + 1 / 2⌋ = N := by
      rw [Int.floor_int_add]
      have : ⌊(1 / 2 : ℚ)⌋ = 0 := by
        rw [Int.floor_eq_zero_iff]; constructor <;> norm_num
      omega
    omega
  · have : (0 : Int) ≤ ⌊-q + 1 / 2⌋ := by
      rw [Int.le_floor]
      push_cast
      linarith
    omega

theorem clampF32_mem (x lo hi : ℚ) (h : lo ≤ hi) :
    lo ≤ clampF32 x lo hi ∧ clampF32 x lo hi ≤ hi := by
  unfold clampF32
  split_ifs <;> constructor <;> linarith

theorem clampF32_eq_self (x lo hi : ℚ) (h1 : lo ≤ x) (h2 : x ≤ hi) : clampF32 x lo hi = x := by
  unfold clampF32
  split_ifs <;> linarith

/-! Evaluation lemmas for the offset steps and for the whole integer-to-
integer conversion path with explicit ranges and defaulted chroma. -/

theorem inputOffset_int_limited (F : VideoFormat) (v : ℚ)
    (hF : F.sample_type = SampleType.Integer)
    (h8 : 8 ≤ F.bits_per_sample) (h30 : F.bits_per_sample ≤ 30) :
    inputOffset v F ColorRange.Limited true false =
      some (v - 16 * 2 ^ (F.bits_per_sample - 8).toNat) := by
  have hm : (F.bits_per_sample - 8).toNat ≤ 22 := by omega
  have hval : (16 : Int) * 2 ^ (F.bits_per_sample - 8).toNat < 2147483648 := by
    calc (16 : Int) * 2 ^ (F.bits_per_sample - 8).toNat
        ≤ 16 * 2 ^ 22 := by
          have := two_pow_le_of_le (F.bits_per_sample - 8).toNat 22 hm
          linarith
      _ < 2147483648 := by norm_num
  have hs : shlI32 16 (F.bits_per_sample - 8) =
      some (16 * 2 ^ (F.bits_per_sample - 8).toNat) :=
    shlI32_eq _ _ (by omega) (by omega) (by positivity) hval
  unfold inputOffset
  rw [if_pos ⟨rfl, hF⟩, if_neg (by simp), if_pos rfl, hs]
  simp only [Option.map_some', Option.some.injEq]
  push_cast
  ring

theorem inputOffset_int_full (F : VideoFormat) (v : ℚ)
    (hF : F.sample_type = SampleType.Integer) :
    inputOffset v F ColorRange.Full true false = some v := by
  unfold inputOffset
  rw [if_pos ⟨rfl, hF⟩, if_neg (by simp), if_neg (by simp)]

theorem outputOffset_int_limited (G : VideoFormat) (x : ℚ)
    (hG : G.sample_type = SampleType.Integer)
    (h8 : 8 ≤ G.bits_per_sample) (h30 : G.bits_per_sample ≤ 30) :
    outputOffset x G ColorRange.Limited true false =
      some (x + 16 * 2 ^ (G.bits_per_sample - 8).toNat) := by
  have hm : (G.bits_per_sample - 8).toNat ≤ 22 := by omega
  have hval : (16 : Int) * 2 ^ (G.bits_per_sample - 8).toNat < 2147483648 := by
    calc (16 : Int) * 2 ^ (G.bits_per_sample - 8).toNat
        ≤ 16 * 2 ^ 22 := by
          have := two_pow_le_of_le (G.bits_per_sample - 8).toNat 22 hm
          linarith
      _ < 2147483648 := by norm_num
  have hs : shlI32 16 (G.bits_per_sample - 8) =
      some (16 * 2 ^ (G.bits_per_sample - 8).toNat) :=
    shlI32_eq _ _ (by omega) (by omega) (by positivity) hval
  unfold outputOffset
  rw [if_pos ⟨rfl, hG⟩, if_neg (by simp), if_pos rfl, hs]
  simp only [Option.map_some', Option.some.injEq]
  push_cast
  ring

theorem outputOffset_int_full (G : VideoFormat) (x : ℚ)
    (hG : G.sample_type = SampleType.Integer) :
    outputOffset x G ColorRange.Full true false = some x := by
  unfold outputOffset
  rw [if_pos ⟨rfl, hG⟩, if_neg (by simp), if_neg (by simp)]

theorem scaleChroma_none_eq_false (F G : VideoFormat) : scaleChroma F G none = false := by
  unfold scaleChroma
  split_ifs <;> rfl

theorem scale_value_int_full_eval (F G : VideoFormat) (v : ℚ)
    (hF : F.sample_type = SampleType.Integer) (hG : G.sample_type = SampleType.Integer)
    (h8F : 8 ≤ F.bits_per_sample) (h30F : F.bits_per_sample ≤ 30)
    (h8G : 8 ≤ G.bits_per_sample) (h30G : G.bits_per_sample ≤ 30)
    (hne : F.bits_per_sample ≠ G.bits_per_sample) :
    scale_value v F G (some ColorRange.Full) (some ColorRange.Full) none none =
      some (clampF32 (roundF32 (v *
          (((2 : ℚ) ^ G.bits_per_sample.toNat - 1) / ((2 : ℚ) ^ F.bits_per_sample.toNat - 1))))
        0 ((2 : ℚ) ^ G.bits_per_sample.toNat - 1)) := by
  have hrF : resolveRange F (some ColorRange.Full) = ColorRange.Full := rfl
  have hrG : resolveRange G (some ColorRange.Full) = ColorRange.Full := rfl
  unfold scale_value
  rw [if_neg (fun hc => hne hc.1), scaleChroma_none_eq_false, hrF, hrG, Option.getD_none,
    peak_value_int_full F (some false) hF (by omega) h30F, Option.some_bind,
    lowest_value_resolved_full F (some false) (some ColorRange.Full) hF rfl, Option.some_bind,
    peak_value_int_full G (some false) hG (by omega) h30G, Option.some_bind,
    lowest_value_resolved_full G (some false) (some ColorRange.Full) hG rfl, Option.some_bind,
    inputOffset_int_full F v hF, Option.some_bind,
    outputOffset_int_full G _ hG, Option.some_bind,
    if_pos hG, peak_value_int_full G none hG (by omega) h30G]
  simp only [Option.map_some', sub_zero]

theorem scale_value_int_limited_eval (F G : VideoFormat) (v : ℚ)
    (hF : F.sample_type = SampleType.Integer) (hG : G.sample_type = SampleType.Integer)
    (h8F : 8 ≤ F.bits_per_sample) (h30F : F.bits_per_sample ≤ 30)
    (h8G : 8 ≤ G.bits_per_sample) (h30G : G.bits_per_sample ≤ 30)
    (hne : F.bits_per_sample ≠ G.bits_per_sample) :
    scale_value v F G (some ColorRange.Limited) (some ColorRange.Limited) none none =
      some (clampF32 (roundF32 ((v - 16 * 2 ^ (F.bits_per_sample - 8).toNat) *
          ((235 * 2 ^ (G.bits_per_sample - 8).toNat -
            16 * (2 : ℚ) ^ (G.bits_per_sample - 8).toNat) /
           (235 * 2 ^ (F.bits_per_sample - 8).toNat -
            16 * (2 : ℚ) ^ (F.bits_per_sample - 8).toNat)) +
          16 * 2 ^ (G.bits_per_sample - 8).toNat))
        0 ((2 : ℚ) ^ G.bits_per_sample.toNat - 1)) := by
  have hrF : resolveRange F (some ColorRange.Limited) = ColorRange.Limited := rfl
  have hrG : resolveRange G (some ColorRange.Limited) = ColorRange.Limited := rfl
  unfold scale_value
  rw [if_neg (fun hc => hne hc.1), scaleChroma_none_eq_false, hrF, hrG, Option.getD_none,
    peak_value_int_limited_false F hF h8F (by omega), Option.some_bind,
    lowest_value_resolved_limited F (some false) (some ColorRange.Limited) hF h8F (by omega) rfl,
    Option.some_bind,
    peak_value_int_limited_false G hG h8G (by omega), Option.some_bind,
    lowest_value_resolved_limited G (some false) (some ColorRange.Limited) hG h8G (by omega) rfl,
    Option.some_bind,
    inputOffset_int_limited F v hF h8F h30F, Option.some_bind,
    outputOffset_int_limited G _ hG h8G h30G, Option.some_bind,
    if_pos hG, peak_value_int_full G none hG (by omega) h30G]
  simp only [Option.map_some']

/-! Lemmas about token lookup, for the dither-strategy parser. -/

theorem lookupToken_eq_some (t : String) (d : DitherType) (l : List (String × DitherType))
    (hp : l.Pairwise (fun a b => a.1 ≠ b.1)) :
    lookupToken t l = some d ↔ (t, d) ∈ l := by
  induction l with
  | nil => simp [lookupToken]
  | cons p rest ih =>
    obtain ⟨tok0, d0⟩ := p
    rw [List.pairwise_cons] at hp
    unfold lookupToken
    by_cases h : t = tok0
    · rw [if_pos h]
      simp only [Option.some.injEq, List.mem_cons, Prod.mk.injEq]
      constructor
      · rintro rfl
        exact Or.inl ⟨h, rfl⟩
      · rintro (⟨-, rfl⟩ | hmem)
        · rfl
        · exact absurd h.symm (hp.1 (t, d) hmem)
    · rw [if_neg h, ih hp.2]
      simp only [List.mem_cons, Prod.mk.injEq]
      constructor
      · exact fun hm => Or.inr hm
      · rintro (⟨rfl, -⟩ | hmem)
        · exact absurd rfl h
        · exact hmem

theorem lookupToken_eq_none (t : String) (l : List (String × DitherType)) :
    lookupToken t l = none ↔ ∀ p ∈ l, t ≠ p.1 := by
  induction l with
  | nil => simp [lookupToken]
  | cons p rest ih =>
    obtain ⟨tok0, d0⟩ := p
    unfold lookupToken
    by_cases h : t = tok0
    · rw [if_pos h]
      exact iff_of_false (by simp)
        (fun hall => hall (tok0, d0) (List.mem_cons_self _ _) h)
    · rw [if_neg h, ih]
      constructor
      · intro hall p hp
        rcases List.mem_cons.mp hp with rfl | hm
        · exact h
        · exact hall p hm
      · intro hall p hp
        exact hall p (List.mem_cons_of_mem _ hp)

theorem ditherTable_pairwise : ditherTable.Pairwise (fun a b => a.1 ≠ b.1) := by
  simp [ditherTable]

theorem ditherTable_mem (d : DitherType) : (ditherSerialization d, d) ∈ ditherTable := by
  cases d <;> simp [ditherTable, ditherSerialization]

theorem ditherTable_token (p : String × DitherType) (h : p ∈ ditherTable) :
    p.1 = ditherSerialization p.2 := by
  have hall : ditherTable.all (fun q => q.1 == ditherSerialization q.2) = true := by decide
  rw [List.all_eq_true] at hall
  exact beq_iff_eq.mp (hall p h)

/-! Claim theorems. -/

/-- Claim C2: for every format `F`, every range `R` passed explicitly as both
`range_in` and `range_out`, every scale-offsets and chroma argument, and
every value `v`, `scale_value` returns `v` unchanged, exactly, as a real
number (the early-exit identity path always fires: equal bit depth, equal
resolved range, equal sample representation). -/
theorem claim2_identity (F : VideoFormat) (R : ColorRange) (so ch : Option Bool) (v : ℚ) :
    scale_value v F F (some R) (some R) so ch = some v := by
  unfold scale_value
  simp

/-- Claim C10: whenever source and destination formats agree on bit depth and
sample representation and the resolved ranges (explicit or defaulted) are
equal, `scale_value` returns the input value unchanged — even across color
families or subsampling and even with `scale_offsets` true: no offset,
rescale, rounding, or clamping is applied on this path. -/
theorem claim10_early_exit (v : ℚ) (format_in format_out : VideoFormat)
    (ri ro : Option ColorRange) (so ch : Option Bool)
    (hbits : format_in.bits_per_sample = format_out.bits_per_sample)
    (hst : format_in.sample_type = format_out.sample_type)
    (hrange : resolveRange format_in ri = resolveRange format_out ro) :
    scale_value v format_in format_out ri ro so ch = some v := by
  unfold scale_value
  rw [if_pos ⟨hbits, hrange, hst⟩]

/-- Claim C10 witness: an 8-bit integer Gray source and an 8-bit integer YUV
destination with defaulted (hence equal, Limited) ranges and
`scale_offsets = true` pass the value through unchanged. -/
theorem claim10_witness :
    scale_value 7 GRAY8 YUV444P8 none none (some true) none = some 7 :=
  claim10_early_exit 7 GRAY8 YUV444P8 none none (some true) none (by decide) (by decide)
    (by decide)

/-- Claim C6: whenever the source or destination color family is RGB, the
output of `scale_value` is identical for every value of the chroma argument;
likewise, for an RGB format, `lowest_value` and `peak_value` return the same
result for every value of their chroma argument. -/
theorem claim6_rgb_chroma_suppression :
    (∀ (v : ℚ) (format_in format_out : VideoFormat) (ri ro : Option ColorRange)
      (so c1 c2 : Option Bool),
      format_in.color_family = ColorFamily.RGB ∨ format_out.color_family = ColorFamily.RGB →
      scale_value v format_in format_out ri ro so c1 =
        scale_value v format_in format_out ri ro so c2) ∧
    (∀ (f : VideoFormat) (c1 c2 : Option Bool) (r : Option ColorRange),
      f.color_family = ColorFamily.RGB →
      lowest_value f c1 r = lowest_value f c2 r ∧ peak_value f c1 r = peak_value f c2 r) := by
  constructor
  · intro v format_in format_out ri ro so c1 c2 h
    have hsc : scaleChroma format_in format_out c1 = scaleChroma format_in format_out c2 := by
      unfold scaleChroma
      rw [if_pos h, if_pos h]
    unfold scale_value
    rw [hsc]
  · intro f c1 c2 r h
    have hc : ∀ c : Option Bool, resolvedChroma f c = false := by
      intro c
      unfold resolvedChroma
      rw [if_pos h]
    constructor
    · unfold lowest_value
      rw [hc c1, hc c2]
    · unfold peak_value
      rw [hc c1, hc c2]

/-- Claim C6 witness: with an RGB source, chroma `some true`, `some false`
and `none` all yield the same `scale_value` result, and the chroma flag does
not change `lowest_value`/`peak_value` of an RGB format. -/
theorem claim6_witness :
    scale_value 10 RGB24 GRAY8 none none none (some true) =
      scale_value 10 RGB24 GRAY8 none none none (some false) ∧
    lowest_value RGB24 (some true) none = lowest_value RGB24 (some false) none ∧
    peak_value RGB24 (some true) none = peak_value RGB24 (some false) none :=
  ⟨claim6_rgb_chroma_suppression.1 10 RGB24 GRAY8 none none none (some true) (some false)
      (Or.inl (by decide)),
    (claim6_rgb_chroma_suppression.2 RGB24 (some true) (some false) none (by decide)).1,
    (claim6_rgb_chroma_suppression.2 RGB24 (some true) (some false) none (by decide)).2⟩

/-- Claim C3: `lowest_value` returns -0.5 for Float representation with
effective chroma true and 0.0 with chroma false; for Integer representation
it returns 0.0 when the resolved range is Full and the exact value
`16 <<(bitDepth - 8)` when the resolved range is Limited; the chroma flag
defaults to false and is forced false for RGB, and the range defaults to
Full for RGB and Limited otherwise.  Integer bit depths are those of the
format catalogue (8 to 32), on which the i32 shift is exact. -/
theorem claim3_lowest_value_contract (f : VideoFormat) (c : Option Bool) (r : Option ColorRange)
    (hvalid : f.sample_type = SampleType.Integer →
      8 ≤ f.bits_per_sample ∧ f.bits_per_sample ≤ 32) :
    lowest_value f c r =
      some (if f.sample_type = SampleType.Float then
          (if (if f.color_family = ColorFamily.RGB then false else c.getD false) then
            -(1 / 2 : ℚ) else 0)
        else if r.getD
            (if f.color_family = ColorFamily.RGB then ColorRange.Full else ColorRange.Limited) =
            ColorRange.Limited then
          (16 : ℚ) * 2 ^ (f.bits_per_sample - 8).toNat
        else 0) := by
  by_cases hf : f.sample_type = SampleType.Float
  · unfold lowest_value resolvedChroma
    simp only [if_pos hf]
  · have hi : f.sample_type = SampleType.Integer := by
      cases hst : f.sample_type <;> simp_all
    obtain ⟨h8, h32⟩ := hvalid hi
    rw [if_neg hf]
    by_cases hr : r.getD
        (if f.color_family = ColorFamily.RGB then ColorRange.Full else ColorRange.Limited) =
        ColorRange.Limited
    · rw [if_pos hr, lowest_value_resolved_limited f c r hi h8 (by omega) hr]
    · have hrf : r.getD
          (if f.color_family = ColorFamily.RGB then ColorRange.Full else ColorRange.Limited) =
          ColorRange.Full := by
        cases h2 : r.getD
            (if f.color_family = ColorFamily.RGB then ColorRange.Full else ColorRange.Limited)
        · exact absurd h2 hr
        · rfl
      rw [if_neg hr, lowest_value_resolved_full f c r hi hrf]

/-- Claim C3 witness: 16-bit integer gray format, chroma flag set, explicit
Limited range: the studio black floor is 16 shifted by 8, that is 4096. -/
theorem claim3_witness :
    lowest_value GRAY16 (some true) (some ColorRange.Limited) = some 4096 := by
  rw [claim3_lowest_value_contract GRAY16 (some true) (some ColorRange.Limited) (by decide)]
  simp [GRAY16, make_video_format]
  norm_num

/-- Claim C9: parsing a dither-strategy token succeeds exactly on the twelve
serialized names, compared ASCII-case-insensitively, each yielding its
corresponding variant, and fails (returns an error) on every other token. -/
theorem claim9_dither_parsing (s : String) :
    (∀ d : DitherType, dither_from_str s = some d ↔ asciiLowercase s = ditherSerialization d) ∧
    (dither_from_str s = none ↔ ∀ d : DitherType, asciiLowercase s ≠ ditherSerialization d) := by
  have hbridge : dither_from_str s = lookupToken (asciiLowercase s) ditherTable := rfl
  constructor
  · intro d
    rw [hbridge, lookupToken_eq_some _ _ _ ditherTable_pairwise]
    constructor
    · exact fun h => ditherTable_token (asciiLowercase s, d) h
    · intro h
      rw [h]
      exact ditherTable_mem d
  · rw [hbridge, lookupToken_eq_none]
    constructor
    · intro hall d heq
      exact hall (ditherSerialization d, d) (ditherTable_mem d) heq
    · intro hall p hp heq
      exact hall p.2 (heq.trans (ditherTable_token p hp))

/-- Claim C7 counterexample: the claim quantifies over every format with bit
depth at least 1, but an integer format of depth 1 makes `lowest_value` shift
by the negative amount `1 - 8`, which panics (checked i32 semantics), and the
catalogue format GRAY32 makes the full-range `peak_value` compute
`(1 << 32) - 1` in i32, which also fails. -/
theorem claim7_counterexample :
    lowest_value (make_video_format ColorFamily.Gray SampleType.Integer 1 0 0) none none =
      none ∧
    peak_value GRAY32 none (some ColorRange.Full) = none := by
  constructor
  · decide
  · decide

/-- Claim C7 amended: for every format descriptor whose representation is
Float, or Integer with bit depth between 8 and 30, and every chroma/range
argument, each of `lowest_value`, `neutral_value` and `peak_value` returns a
finite value with no panic. -/
theorem claim7_amended_total (f : VideoFormat) (c : Option Bool) (r : Option ColorRange)
    (hvalid : f.sample_type = SampleType.Integer →
      8 ≤ f.bits_per_sample ∧ f.bits_per_sample ≤ 30) :
    (lowest_value f c r).isSome ∧ (neutral_value f).isSome ∧ (peak_value f c r).isSome :=
  ⟨lowest_value_isSome f c r hvalid, neutral_value_isSome f hvalid,
    peak_value_isSome f c r hvalid⟩

/-- Claim C7 witness: the three characteristic values of the 8-bit gray
format all succeed, with a chroma flag supplied. -/
theorem claim7_witness :
    (lowest_value GRAY8 (some true) none).isSome ∧ (neutral_value GRAY8).isSome ∧
      (peak_value GRAY8 (some true) none).isSome :=
  claim7_amended_total GRAY8 (some true) none (by decide)

/-- Claim C1 counterexample: on the early-exit identity path nothing is
clamped, so an input above the storage span passes through unchanged: with
the 8-bit integer destination GRAY8, the input 300 is returned as 300, which
exceeds the destination's absolute storage bound of 255. -/
theorem claim1_counterexample :
    scale_value 300 GRAY8 GRAY8 none none none none = some 300 ∧
    (2 : ℚ) ^ GRAY8.bits_per_sample.toNat - 1 < 300 := by
  constructor
  · rfl
  · simp [GRAY8, make_video_format]
    try norm_num

/-- Claim C1 amended: for every destination Integer format of bit depth 8 to
30, every source format (an Integer source also of depth 8 to 30 and with
the input value inside the source's storage span; a Float source with any
value), and every combination of range, scale-offsets and chroma arguments,
`scale_value` returns a value within the destination's absolute storage span,
including on the early-exit identity path. -/
theorem claim1_amended_storage_bound (v : ℚ) (format_in format_out : VideoFormat)
    (ri ro : Option ColorRange) (so ch : Option Bool)
    (hout : format_out.sample_type = SampleType.Integer)
    (h8 : 8 ≤ format_out.bits_per_sample) (h30 : format_out.bits_per_sample ≤ 30)
    (hin : format_in.sample_type = SampleType.Integer →
      8 ≤ format_in.bits_per_sample ∧ format_in.bits_per_sample ≤ 30 ∧
        0 ≤ v ∧ v ≤ 2 ^ format_in.bits_per_sample.toNat - 1) :
    ∃ result, scale_value v format_in format_out ri ro so ch = some result ∧
      0 ≤ result ∧ result ≤ (2 : ℚ) ^ format_out.bits_per_sample.toNat - 1 := by
  have hpow1 : (1 : ℚ) ≤ 2 ^ format_out.bits_per_sample.toNat :=
    one_le_pow₀ (by norm_num)
  by_cases hearly : format_in.bits_per_sample = format_out.bits_per_sample ∧
      resolveRange format_in ri = resolveRange format_out ro ∧
      format_in.sample_type = format_out.sample_type
  · have hfi : format_in.sample_type = SampleType.Integer := hearly.2.2.trans hout
    obtain ⟨hi8, hi30, hv0, hv1⟩ := hin hfi
    refine ⟨v, ?_, hv0, ?_⟩
    · unfold scale_value
      rw [if_pos hearly]
    · rw [hearly.1] at hv1
      exact hv1
  · obtain ⟨ip, hip⟩ := Option.isSome_iff_exists.mp
      (peak_value_isSome format_in (some (scaleChroma format_in format_out ch))
        (some (resolveRange format_in ri)) (fun hI => ⟨(hin hI).1, (hin hI).2.1⟩))
    obtain ⟨il, hil⟩ := Option.isSome_iff_exists.mp
      (lowest_value_isSome format_in (some (scaleChroma format_in format_out ch))
        (some (resolveRange format_in ri)) (fun hI => ⟨(hin hI).1, (hin hI).2.1⟩))
    obtain ⟨op, hop⟩ := Option.isSome_iff_exists.mp
      (peak_value_isSome format_out (some (scaleChroma format_in format_out ch))
        (some (resolveRange format_out ro)) (fun _ => ⟨h8, h30⟩))
    obtain ⟨ol, hol⟩ := Option.isSome_iff_exists.mp
      (lowest_value_isSome format_out (some (scaleChroma format_in format_out ch))
        (some (resolveRange format_out ro)) (fun _ => ⟨h8, h30⟩))
    have hshift : ∃ w, inputOffset v format_in (resolveRange format_in ri)
        (so.getD true) (scaleChroma format_in format_out ch) = some w := by
      unfold inputOffset
      split_ifs with h1 h2 h3
      · obtain ⟨hb8, hb30, -, -⟩ := hin h1.2
        obtain ⟨o, ho⟩ := Option.isSome_iff_exists.mp
          (shlI32_isSome 128 (format_in.bits_per_sample - 8) (by omega) (by omega))
        exact ⟨v - o, by rw [ho]; rfl⟩
      · obtain ⟨hb8, hb30, -, -⟩ := hin h1.2
        obtain ⟨o, ho⟩ := Option.isSome_iff_exists.mp
          (shlI32_isSome 16 (format_in.bits_per_sample - 8) (by omega) (by omega))
        exact ⟨v - o, by rw [ho]; rfl⟩
      · exact ⟨v, rfl⟩
      · exact ⟨v, rfl⟩
    obtain ⟨w, hw⟩ := hshift
    have hshift2 : ∃ w2, outputOffset (w * ((op - ol) / (ip - il))) format_out
        (resolveRange format_out ro) (so.getD true)
        (scaleChroma format_in format_out ch) = some w2 := by
      unfold outputOffset
      split_ifs with h1 h2 h3
      · obtain ⟨o, ho⟩ := Option.isSome_iff_exists.mp
          (shlI32_isSome 128 (format_out.bits_per_sample - 8) (by omega) (by omega))
        exact ⟨_, by rw [ho]; rfl⟩
      · obtain ⟨o, ho⟩ := Option.isSome_iff_exists.mp
          (shlI32_isSome 16 (format_out.bits_per_sample - 8) (by omega) (by omega))
        exact ⟨_, by rw [ho]; rfl⟩
      · exact ⟨_, rfl⟩
      · exact ⟨_, rfl⟩
    obtain ⟨w2, hw2⟩ := hshift2
    have hpeakfull : peak_value format_out none (some ColorRange.Full) =
        some ((2 : ℚ) ^ format_out.bits_per_sample.toNat - 1) :=
      peak_value_int_full format_out none hout (by omega) h30
    refine ⟨clampF32 (roundF32 w2) 0 ((2 : ℚ) ^ format_out.bits_per_sample.toNat - 1),
      ?_, ?_, ?_⟩
    · unfold scale_value
      rw [if_neg hearly, hip, Option.some_bind, hil, Option.some_bind, hop, Option.some_bind,
        hol, Option.some_bind, hw, Option.some_bind, hw2, Option.some_bind, if_pos hout,
        hpeakfull]
      rfl
    · exact (clampF32_mem _ _ _ (by linarith)).1
    · exact (clampF32_mem _ _ _ (by linarith)).2

/-- Claim C1 witness: converting the representable 8-bit value 200 to the
10-bit gray format yields a result, and that result lies within the 10-bit
storage span. -/
theorem claim1_witness :
    ∃ result, scale_value 200 GRAY8 GRAY10 none none none none = some result ∧
      0 ≤ result ∧ result ≤ (2 : ℚ) ^ GRAY10.bits_per_sample.toNat - 1 :=
  claim1_amended_storage_bound 200 GRAY8 GRAY10 none none none none (by decide) (by decide)
    (by decide) (fun _ => by simp [GRAY8, make_video_format]; try norm_num)

/-- Claim C4: the code evaluated at its own catalogue formats GRAY32 and
GRAY31 with Full range: the claimed peak `(1 << bitDepth) - 1` is not
produced; the i32 shift/subtraction overflows and the call panics (checked
semantics; a release build would wrap instead and return 0 for GRAY32,
likewise not the claimed value). -/
theorem claim4_peak_value_failing_input :
    peak_value GRAY32 none (some ColorRange.Full) = none ∧
    peak_value GRAY31 none (some ColorRange.Full) = none := by
  constructor
  · decide
  · decide

/-- Claim C8: the code evaluated on any input: `depth` begins with `todo!`,
so it unconditionally panics instead of returning the typed
`DependencyNotFoundError`; the statically unreachable continuation after the
`todo!` (modelled as `depth_after_todo`) does return the typed
`DependencyNotFoundError "fmtc"` when the plugin is absent, and with the
plugin present it proceeds to the delegated invocation, never producing a
dependency error. -/
theorem claim8_depth_todo_panics :
    (∀ (core : Core) (clip : VideoNode) (bit_depth : Nat),
      depth core clip bit_depth = RustOutcome.panicked
        "not yet implemented: Needs configurable dither type, non-fmtc dithering, and probably more.") ∧
    (∀ (clip : VideoNode) (bit_depth : Nat) (cm : VSMap),
      depth_after_todo ⟨fun _ => none, cm⟩ clip bit_depth =
        Except.error (VapoursError.DependencyNotFoundError FMTCONV_NAMESPACE)) ∧
    (∀ (clip : VideoNode) (bit_depth : Nat) (p : Plugin) (cm : VSMap),
      ∃ args : VSMap,
        depth_after_todo ⟨fun _ => some p, cm⟩ clip bit_depth =
          match (p.invoke "bitdepth" args).get_video_node "clip" 0 with
          | none => Except.error (VapoursError.FramePropertyError "clip")
          | some node => Except.ok node) :=
  ⟨fun core clip bd => rfl, fun clip bd cm => rfl, fun clip bd p cm => ⟨_, rfl⟩⟩

/-- Claim C5 counterexample: the claim quantifies over every strictly deeper
integer format `B`, but for the catalogue format GRAY31 the first leg already
panics instead of producing a value to scale back: the destination clamp
computes `peak_value(None, Full)`, whose i32 `(1 << 31) - 1` overflows, so
the round trip of the representable value 0 yields no result at all. -/
theorem claim5_counterexample :
    (scale_value ((0 : Int) : ℚ) GRAY8 GRAY31 (some ColorRange.Limited) (some ColorRange.Limited)
        none none).bind
      (fun w => scale_value w GRAY31 GRAY8 (some ColorRange.Limited) (some ColorRange.Limited)
        none none) = none := by decide

/-- Claim C5 amended: for an integer format `A` and a strictly deeper integer
format `B`, both with bit depth in [8, 30] (the range on which the i32
arithmetic of the destination clamp is exact; depths 31 and 32 panic, see the
counterexample and C4), with the same range supplied explicitly on both legs
and all other arguments defaulted, scaling a representable value of `A` up to
`B` and back recovers it exactly. -/
theorem claim5_round_trip (A B : VideoFormat) (R : ColorRange) (v : Int)
    (hA : A.sample_type = SampleType.Integer) (hB : B.sample_type = SampleType.Integer)
    (h8 : 8 ≤ A.bits_per_sample) (hlt : A.bits_per_sample < B.bits_per_sample)
    (h30 : B.bits_per_sample ≤ 30)
    (hv0 : 0 ≤ v) (hv1 : v ≤ 2 ^ A.bits_per_sample.toNat - 1) :
    (scale_value (v : ℚ) A B (some R) (some R) none none).bind
      (fun w => scale_value w B A (some R) (some R) none none) = some (v : ℚ) := by
  have hv0q : (0 : ℚ) ≤ (v : ℚ) := by exact_mod_cast hv0
  cases R with
  | Full =>
    rw [scale_value_int_full_eval A B (v : ℚ) hA hB h8 (by omega) (by omega) h30 (by omega)]
    set a := A.bits_per_sample.toNat with ha
    set b := B.bits_per_sample.toNat with hb
    have hab : a < b := by omega
    have hv1q : (v : ℚ) ≤ 2 ^ a - 1 := by exact_mod_cast hv1
    have hpa : (1 : ℚ) < 2 ^ a := by
      calc (1 : ℚ) < 2 ^ 1 := by norm_num
        _ ≤ 2 ^ a := pow_le_pow_right₀ (by norm_num) (by omega)
    have hpb : (1 : ℚ) < 2 ^ b := by
      calc (1 : ℚ) < 2 ^ 1 := by norm_num
        _ ≤ 2 ^ b := pow_le_pow_right₀ (by norm_num) (by omega)
    have hpow_lt : (2 : ℚ) ^ a < 2 ^ b := pow_lt_pow_right₀ (by norm_num) hab
    set r : ℚ := ((2 : ℚ) ^ b - 1) / ((2 : ℚ) ^ a - 1) with hr
    have hr0 : 0 < r := div_pos (by linarith) (by linarith)
    have hr1 : 1 < r := (one_lt_div (by linarith)).mpr (by linarith)
    have hx0 : (0 : ℚ) ≤ (v : ℚ) * r := mul_nonneg hv0q hr0.le
    have hxle : (v : ℚ) * r ≤ (2 : ℚ) ^ b - 1 := by
      have h1 : (v : ℚ) * r ≤ ((2 : ℚ) ^ a - 1) * r := mul_le_mul_of_nonneg_right hv1q hr0.le
      have h2 : ((2 : ℚ) ^ a - 1) * r = (2 : ℚ) ^ b - 1 := by
        have hne : ((2 : ℚ) ^ a - 1) ≠ 0 := ne_of_gt (by linarith)
        rw [hr, mul_comm, div_mul_cancel₀ _ hne]
      linarith
    have hNpos : (0 : Int) ≤ 2 ^ b - 1 := by
      have : (1 : Int) ≤ 2 ^ b := one_le_pow₀ (by norm_num)
      omega
    have hround_le : roundInt ((v : ℚ) * r) ≤ 2 ^ b - 1 :=
      roundInt_le _ _ hNpos (by push_cast; linarith)
    have hround_0 : 0 ≤ roundInt ((v : ℚ) * r) := roundInt_nonneg _ hx0
    rw [clampF32_eq_self (roundF32 ((v : ℚ) * r)) 0 ((2 : ℚ) ^ b - 1)
      (by unfold roundF32; exact_mod_cast hround_0)
      (by unfold roundF32; exact_mod_cast hround_le)]
    rw [Option.some_bind,
      scale_value_int_full_eval B A _ hB hA (by omega) h30 h8 (by omega) (by omega), ← ha, ← hb]
    set w : Int := roundInt ((v : ℚ) * r) with hw
    have hwq : roundF32 ((v : ℚ) * r) = (w : ℚ) := by
      unfold roundF32
      rw [← hw]
    rw [hwq]
    set s : ℚ := ((2 : ℚ) ^ a - 1) / ((2 : ℚ) ^ b - 1) with hs
    have hs0 : 0 < s := div_pos (by linarith) (by linarith)
    have hs1 : s < 1 := (div_lt_one (by linarith)).mpr (by linarith)
    have hrs : r * s = 1 := by
      rw [hr, hs, div_mul_div_comm, mul_comm ((2 : ℚ) ^ b - 1)]
      exact div_self (mul_ne_zero (ne_of_gt (by linarith)) (ne_of_gt (by linarith)))
    have habs : |(w : ℚ) - (v : ℚ) * r| ≤ 1 / 2 := by
      have h := abs_roundF32_sub ((v : ℚ) * r)
      rw [hwq] at h
      exact h
    have hclose : |(w : ℚ) * s - (v : ℚ)| < 1 / 2 := by
      have key : (w : ℚ) * s - (v : ℚ) = ((w : ℚ) - (v : ℚ) * r) * s := by
        have hv' : (v : ℚ) * (r * s) = (v : ℚ) := by rw [hrs, mul_one]
        calc (w : ℚ) * s - (v : ℚ) = (w : ℚ) * s - (v : ℚ) * (r * s) := by rw [hv']
          _ = ((w : ℚ) - (v : ℚ) * r) * s := by ring
      calc |(w : ℚ) * s - (v : ℚ)| = |(w : ℚ) - (v : ℚ) * r| * s := by
            rw [key, abs_mul, abs_of_pos hs0]
        _ ≤ (1 / 2) * s := mul_le_mul_of_nonneg_right habs hs0.le
        _ < 1 / 2 := by nlinarith
    have hroundv : roundInt ((w : ℚ) * s) = v := roundInt_eq_of_abs_lt v _ hclose
    have hflo : roundF32 ((w : ℚ) * s) = (v : ℚ) := by
      unfold roundF32
      rw [hroundv]
    rw [hflo, clampF32_eq_self _ _ _ hv0q (by linarith)]
  | Limited =>
    rw [scale_value_int_limited_eval A B (v : ℚ) hA hB h8 (by omega) (by omega) h30 (by omega)]
    set a := A.bits_per_sample.toNat with ha
    set b := B.bits_per_sample.toNat with hb
    set m := (A.bits_per_sample - 8).toNat with hm
    set n := (B.bits_per_sample - 8).toNat with hn
    have hab : a < b := by omega
    have hnm : n = m + (b - a) := by omega
    have hv1q : (v : ℚ) ≤ 2 ^ a - 1 := by exact_mod_cast hv1
    have hma : a = m + 8 := by omega
    have hnb : b = n + 8 := by omega
    have hpow : (2 : ℚ) ^ n = 2 ^ m * 2 ^ (b - a) := by rw [hnm, pow_add]
    have hpm : (0 : ℚ) < 2 ^ m := by positivity
    have hX : ((v : ℚ) - 16 * 2 ^ m) *
        ((235 * 2 ^ n - 16 * (2 : ℚ) ^ n) / (235 * 2 ^ m - 16 * (2 : ℚ) ^ m)) + 16 * 2 ^ n =
        ((v * 2 ^ (b - a) : Int) : ℚ) := by
      have hden : (235 : ℚ) * 2 ^ m - 16 * 2 ^ m ≠ 0 := by nlinarith
      push_cast
      rw [hpow]
      field_simp
      ring
    rw [hX, roundF32_intCast]
    have h2k : (2 : Int) ≤ 2 ^ (b - a) := by
      calc (2 : Int) = 2 ^ 1 := by norm_num
        _ ≤ 2 ^ (b - a) := pow_le_pow_right₀ (by norm_num) (by omega)
    have hbp : (2 : Int) ^ b = 2 ^ a * 2 ^ (b - a) := by
      rw [← pow_add]
      congr 1
      omega
    have h0le : (0 : Int) ≤ v * 2 ^ (b - a) := mul_nonneg hv0 (by positivity)
    have hle : v * 2 ^ (b - a) ≤ 2 ^ b - 1 := by
      have t1 : v * 2 ^ (b - a) ≤ (2 ^ a - 1) * 2 ^ (b - a) :=
        mul_le_mul_of_nonneg_right hv1 (by positivity)
      have t2 : ((2 : Int) ^ a - 1) * 2 ^ (b - a) = 2 ^ b - 2 ^ (b - a) := by
        rw [hbp]
        ring
      linarith
    rw [clampF32_eq_self _ _ _ (by exact_mod_cast h0le) (by push_cast; exact_mod_cast hle)]
    rw [Option.some_bind,
      scale_value_int_limited_eval B A _ hB hA (by omega) h30 h8 (by omega) (by omega),
      ← ha, ← hm, ← hn]
    have hX2 : (((v * 2 ^ (b - a) : Int) : ℚ) - 16 * 2 ^ n) *
        ((235 * 2 ^ m - 16 * (2 : ℚ) ^ m) / (235 * 2 ^ n - 16 * (2 : ℚ) ^ n)) + 16 * 2 ^ m =
        (v : ℚ) := by
      have hpn : (0 : ℚ) < 2 ^ n := by positivity
      have hden : (235 : ℚ) * 2 ^ n - 16 * 2 ^ n ≠ 0 := by nlinarith
      have hs2 : (235 * 2 ^ m - 16 * (2 : ℚ) ^ m) / (235 * 2 ^ n - 16 * (2 : ℚ) ^ n) =
          1 / 2 ^ (b - a) := by
        rw [div_eq_div_iff hden (by positivity), hpow]
        ring
      push_cast
      rw [hs2, hpow]
      field_simp
      ring
    rw [hX2, roundF32_intCast, clampF32_eq_self _ _ _ hv0q (by exact_mod_cast hv1q)]

/-- Claim C5 witness: the 8-bit value 100 survives the round trip through the
10-bit gray format with Limited range on both legs. -/
theorem claim5_witness :
    (scale_value (100 : ℚ) GRAY8 GRAY10 (some ColorRange.Limited) (some ColorRange.Limited)
        none none).bind
      (fun w => scale_value w GRAY10 GRAY8 (some ColorRange.Limited) (some ColorRange.Limited)
        none none) = some ((100 : Int) : ℚ) :=
  claim5_round_trip GRAY8 GRAY10 ColorRange.Limited 100 (by decide) (by decide) (by decide)
    (by decide) (by decide) (by decide) (by simp [GRAY8, make_video_format]; try norm_num)

end Vapours
